import Mathlib

/-!
Verification development for the pgBackRest protocol core: wire messages,
client/server protocol sessions, the parallel job dispatcher and the
protocol helper (process cache).  The helper (`repoIsLocal`, `pgIsLocal`,
`protocolRemoteParam`, `protocolRemoteGet`, `protocolKeepAlive`,
`protocolFree`) is embedded from `protocol/helper.c`.  The client, server
and parallel dispatcher sources are not part of this source snapshot (only
their test harness is), so those operations are modelled from the
specification, with the test harness fixing the concrete error messages.
-/

namespace PgBackRest

/-- A scalar protocol value: string, int, bool or null (one JSON scalar). -/
inductive PScalar where
  | pnull
  | pbool (b : Bool)
  | pint (i : Int)
  | pstr (s : String)
  deriving DecidableEq

/-- A protocol output value: a scalar or an ordered sequence of scalars. -/
inductive PVal where
  | scalar (s : PScalar)
  | seq (l : List PScalar)
  deriving DecidableEq

/-- Error classes used by the protocol core. -/
inductive ErrorType where
  | JsonFormatError
  | ProtocolError
  | AssertError
  | UnknownError
  | HostInvalidError
  deriving DecidableEq

/-- An error as raised by the protocol core: class, numeric code, message and
an optional stack trace.  Codes 25 (assert) and 39 (protocol) are fixed by
the test harness. -/
structure ProtoError where
  errType : ErrorType
  code : Int
  message : String
  stack : Option String
  deriving DecidableEq

/-- Build an assert-class (contract violation) error, code 25. -/
def assertError (msg : String) : ProtoError :=
  { errType := .AssertError, code := 25, message := msg, stack := some "stack trace" }

/-- Build a protocol-class (handshake / dispatch) error, code 39. -/
def protocolError (msg : String) : ProtoError :=
  { errType := .ProtocolError, code := 39, message := msg, stack := some "stack trace" }

/-- Build a framing (format) error for a line that does not parse. -/
def jsonFormatError (msg : String) : ProtoError :=
  { errType := .JsonFormatError, code := 29, message := msg, stack := some "stack trace" }

/-- Map a wire error code back to an error class.  Modelled from the spec:
codes outside the known range surface as `UnknownError` (the test harness
shows 25 as assert and 255 as unknown). -/
def errorTypeFromCode (code : Int) : ErrorType :=
  if code = 25 then .AssertError
  else if code = 39 then .ProtocolError
  else .UnknownError

end PgBackRest

namespace PgBackRest

/-! ## Protocol helper (`protocol/helper.c`) -/

/-- The storage type a protocol connection serves. -/
inductive ProtocolStorageType where
  | repo
  | pg
  deriving DecidableEq

/-- The slice of configuration state the protocol helper reads and writes:
option presence mirrors `cfgOptionTest`, values mirror `cfgOptionStr` and
`cfgOptionUInt`.  `repoCipherType` defaults to `"none"` when unconfigured. -/
structure Config where
  repoHost : Option String
  pgHost : List (Option String)
  command : Option String
  process : Option Nat
  repoCipherType : String
  repoCipherPass : Option String
  currentCommandName : String
  deriving DecidableEq

/-- A cached protocol client, identified by its label. -/
structure HelperClient where
  label : String
  deriving DecidableEq

/-- The protocol helper cache: a lazily initialized mem context plus the
remote and local client arrays. -/
structure ProtocolHelperState where
  initialized : Bool
  clientRemote : List (Option HelperClient)
  clientLocal : List (Option HelperClient)
  deriving DecidableEq

/-- `repoIsLocal`: the repository is local iff no repo host option is set. -/
def repoIsLocal (cfg : Config) : Bool :=
  !(cfg.repoHost.isSome)

/-- `repoIsLocalVerify`: error when the repository is not local, naming the
current command. -/
def repoIsLocalVerify (cfg : Config) : Except ProtoError Unit :=
  if !(repoIsLocal cfg) then
    .error
      { errType := .HostInvalidError, code := 72,
        message := cfg.currentCommandName ++ " command must be run on the repository host",
        stack := some "stack trace" }
  else
    .ok ()

/-- `pgIsLocal`: pg host `hostId` is local iff option `pgN-host` is not set
for that (1-based) host index. -/
def pgIsLocal (cfg : Config) (hostId : Nat) : Bool :=
  !((cfg.pgHost.getD (hostId - 1) none).isSome)

/-- Modelled from the spec: `cfgExecParam` (config/exec.c, not in this source
snapshot) rebuilds a command line from the current configuration, where a
replacement entry overrides the current value (`some v` sets it, `none`
strips the option) and an absent replacement keeps the current value. -/
def cfgExecParamValue {α : Type} (current : Option α) (replace : Option (Option α)) : Option α :=
  match replace with
  | some v => v
  | none => current

/-- `protocolRemoteParam`: the replacement for the `--command` option.  The
command name is only substituted when no `--command` option is already set. -/
def protocolRemoteParamCommandReplace (cfg : Config) : Option (Option String) :=
  if cfg.command.isSome then none else some (some cfg.currentCommandName)

/-- `protocolRemoteParam`: the replacement for the `--process` option.  The
caller-supplied protocol id is only substituted when no `--process` option is
already set. -/
def protocolRemoteParamProcessReplace (cfg : Config) (protocolId : Nat) : Option (Option Nat) :=
  if cfg.process.isSome then none else some (some protocolId)

/-- The `--command` value on the generated remote command line. -/
def protocolRemoteParamCommandValue (cfg : Config) : Option String :=
  cfgExecParamValue cfg.command (protocolRemoteParamCommandReplace cfg)

/-- The `--process` value on the generated remote command line. -/
def protocolRemoteParamProcessValue (cfg : Config) (protocolId : Nat) : Option Nat :=
  cfgExecParamValue cfg.process (protocolRemoteParamProcessReplace cfg protocolId)

/-- The cipher-adoption step of `protocolRemoteGet`: on a repo remote whose
local cipher type is `"none"`, query the remote for its cipher type and
passphrase and adopt both when the remote type is not `"none"`.  Returns the
updated config and whether the remote was queried. -/
def protocolRemoteGetCipher (protocolStorageType : ProtocolStorageType) (cfg : Config)
    (remoteCipherType remoteCipherPass : String) : Config × Bool :=
  if protocolStorageType = .repo ∧ cfg.repoCipherType = "none" then
    if remoteCipherType ≠ "none" then
      ({ cfg with repoCipherType := remoteCipherType, repoCipherPass := some remoteCipherPass },
        true)
    else
      (cfg, true)
  else
    (cfg, false)

/-- `protocolRemoteGet`: return the cached client for `hostId` when present;
otherwise spawn a client in slot `hostId - 1` and run the cipher-adoption
step.  The remote cipher answers are supplied by the environment.  Returns
the updated config, the updated cache and whether the remote was queried for
cipher options. -/
def protocolRemoteGet (protocolStorageType : ProtocolStorageType) (hostId : Nat)
    (cfg : Config) (st : ProtocolHelperState) (remoteCipherType remoteCipherPass : String) :
    Config × ProtocolHelperState × Bool :=
  let protocolIdx := hostId - 1
  match st.clientRemote.getD protocolIdx none with
  | some _ => (cfg, st, false)
  | none =>
    let cb := protocolRemoteGetCipher protocolStorageType cfg remoteCipherType remoteCipherPass
    (cb.1,
      { st with
        initialized := true,
        clientRemote :=
          st.clientRemote.set protocolIdx (some { label := "remote-" ++ toString hostId }) },
      cb.2)

/-- `protocolKeepAlive`: issue a no-op on every cached remote client (local
clients are never touched).  Returns the list of clients a no-op was issued
on, in slot order; an uninitialized helper or an empty cache yields none. -/
def protocolKeepAlive (st : ProtocolHelperState) : List HelperClient :=
  if st.initialized then st.clientRemote.filterMap id else []

/-! ## Client session

Modelled from the spec: `protocol/client.c` is not in this source snapshot;
operations follow spec section 4.2 with the exact error messages fixed by
the protocol test harness. -/

/-- The fixed product name checked in the greeting. -/
def PROJECT_NAME : String := "pgBackRest"

/-- The running build version checked in the greeting. -/
def PROJECT_VERSION : String := "2.18"

/-- The first line received by a client: either a line that does not parse as
structured text, or a parsed key/value object. -/
inductive GreetingLine where
  | malformed (raw : String)
  | parsed (kv : List (String × PScalar))
  deriving DecidableEq

/-- Look up a greeting key.  A JSON `null` value is indistinguishable from a
missing key (`kvGet` returns the null variant for both). -/
def greetingKeyGet (kv : List (String × PScalar)) (key : String) : Option PScalar :=
  match (kv.find? (fun p => p.fst == key)).map (fun p => p.snd) with
  | some PScalar.pnull => none
  | v => v

/-- Modelled from the spec: validate one greeting key in `protocolClientNew`.
The key must be present, of string type, and equal to the expected value;
each failure is a `ProtocolError` naming the key (messages fixed by the test
harness). -/
def greetingKeyCheck (kv : List (String × PScalar)) (key expected : String) :
    Except ProtoError Unit :=
  match greetingKeyGet kv key with
  | none => .error (protocolError ("unable to find greeting key '" ++ key ++ "'"))
  | some (.pstr v) =>
    if v = expected then
      .ok ()
    else
      .error
        (protocolError
          ("expected value '" ++ expected ++ "' for greeting key '" ++ key ++ "' but got '" ++
            v ++ "'"))
  | some _ => .error (protocolError ("greeting key '" ++ key ++ "' must be string type"))

/-- Modelled from the spec: the greeting validation of `protocolClientNew`.
A non-parseable first line is a framing (format) error; otherwise the keys
`name`, `service` and `version` are validated in that order. -/
def protocolClientOpen (line : GreetingLine) (serviceName : String) : Except ProtoError Unit :=
  match line with
  | .malformed raw => .error (jsonFormatError ("invalid line '" ++ raw ++ "'"))
  | .parsed kv => do
    greetingKeyCheck kv "name" PROJECT_NAME
    greetingKeyCheck kv "service" serviceName
    greetingKeyCheck kv "version" PROJECT_VERSION

/-- The decoded reply a client reads after sending a command: an empty
result, a result with output, or an error result with optional message and
stack fields. -/
inductive SrvReply where
  | resultNone
  | resultOut (v : PVal)
  | errorReply (err : Int) (out : Option String) (errStack : Option String)
  deriving DecidableEq

/-- Modelled from the spec: the error a client raises when the peer reports
an error result.  The message is attributed to the session's label and the
absent fields get their documented defaults. -/
def protocolClientError (label : String) (err : Int) (out errStack : Option String) :
    ProtoError :=
  { errType := errorTypeFromCode err, code := err,
    message := "raised from " ++ label ++ ": " ++ out.getD "no details available",
    stack := some (errStack.getD "no stack trace available") }

/-- Modelled from the spec: decode one reply in `protocolClientExecute`.  An
error reply is re-raised with attribution; an empty reply succeeds with no
value only when no output is expected, and output on a command declared to
have none is a contract violation (message fixed by the test harness). -/
def protocolClientReadOutput (label : String) (outputExpected : Bool) (reply : SrvReply) :
    Except ProtoError (Option PVal) :=
  match reply with
  | .errorReply err out errStack => .error (protocolClientError label err out errStack)
  | .resultNone =>
    if outputExpected then .error (assertError "no output required by command") else .ok none
  | .resultOut v =>
    if outputExpected then .ok (some v) else .error (assertError "no output required by command")

/-- Modelled from the spec: `protocolClientExecute` writes the command and
decodes the single reply supplied by the peer. -/
def protocolClientExecute (label : String) (outputExpected : Bool) (reply : SrvReply) :
    Except ProtoError (Option PVal) :=
  protocolClientReadOutput label outputExpected reply

/-- Modelled from the spec: `protocolClientNoOp` is `execute` of the `noop`
command with no output expected. -/
def protocolClientNoOp (label : String) (reply : SrvReply) : Except ProtoError (Option PVal) :=
  protocolClientExecute label false reply

/-! ## Server session

Modelled from the spec: `protocol/server.c` is not in this source snapshot;
the process loop follows spec section 4.3 with the invalid-command message
and error code fixed by the test harness. -/

/-- One command read by the server. -/
structure CommandMsg where
  name : String
  param : List PScalar
  deriving DecidableEq

/-- One message (line) written by the server: a result, a wire error, or a
raw supplementary line written by a handler. -/
inductive SrvMsg where
  | result (v : Option PVal)
  | errMsg (code : Int) (out : String) (errStack : Option String)
  | raw (line : String)
  deriving DecidableEq

/-- The outcome of offering a command to one handler: not recognized,
serviced (with the messages it wrote), or an error raised while servicing. -/
inductive HandlerOutcome where
  | notMine
  | handled (responses : List SrvMsg)
  | raised (e : ProtoError)
  deriving DecidableEq

/-- A registered server command handler. -/
def Handler : Type := String → List PScalar → HandlerOutcome

/-- Try the handlers in registration order; the first one that does not
answer `notMine` wins. -/
def serverTryHandlers (handlers : List Handler) (name : String) (param : List PScalar) :
    HandlerOutcome :=
  match handlers with
  | [] => .notMine
  | h :: rest =>
    match h name param with
    | .notMine => serverTryHandlers rest name param
    | outcome => outcome

/-- The messages written in response to one non-exit command: `noop` echoes
an empty result; an unrecognized command is answered with an error of the
invalid-command class; a handler error is converted to a wire error message
(code, message, stack when available) instead of ending the loop. -/
def serverRespond (handlers : List Handler) (c : CommandMsg) : List SrvMsg :=
  if c.name = "noop" then
    [.result none]
  else
    match serverTryHandlers handlers c.name c.param with
    | .handled responses => responses
    | .raised e => [.errMsg e.code e.message e.stack]
    | .notMine =>
      let e := protocolError ("invalid command '" ++ c.name ++ "'")
      [.errMsg e.code e.message e.stack]

/-- Modelled from the spec: the `protocolServerProcess` loop over the
incoming command stream.  Only `exit` ends the loop; every other command is
answered and the loop continues. -/
def protocolServerProcess (handlers : List Handler) : List CommandMsg → List SrvMsg
  | [] => []
  | c :: rest =>
    if c.name = "exit" then []
    else serverRespond handlers c ++ protocolServerProcess handlers rest

/-! ## Parallel dispatcher

Modelled from the spec: `protocol/parallel.c` and `protocol/parallelJob.c`
are not in this source snapshot; the job state machine and the dispatcher
pass follow spec section 4.5 with the state-transition error message fixed
by the test harness. -/

/-- The state of a parallel job. -/
inductive JobState where
  | pending
  | running
  | done
  deriving DecidableEq

/-- Render a job state for error messages. -/
def jobStateText : JobState → String
  | .pending => "pending"
  | .running => "running"
  | .done => "done"

/-- One unit of work tracked by the dispatcher: the caller-supplied key, the
command, the state, the 1-based process slot once running, and the result or
error (mutually exclusive) once done. -/
structure ParallelJob where
  key : PScalar
  command : CommandMsg
  state : JobState
  processId : Nat
  result : Option PVal
  errorCode : Option Int
  errorMessage : Option String
  deriving DecidableEq

/-- `protocolParallelJobNew`: a fresh job is pending with no slot, no result
and no error. -/
def protocolParallelJobNew (key : PScalar) (command : CommandMsg) : ParallelJob :=
  { key := key, command := command, state := .pending, processId := 0,
    result := none, errorCode := none, errorMessage := none }

/-- Modelled from the spec: `protocolParallelJobStateSet`.  The only legal
transitions are pending to running and running to done; any other attempt is
an assert-class contract violation raised before the state is assigned, so a
failed attempt produces no updated job. -/
def protocolParallelJobStateSet (job : ParallelJob) (state : JobState) :
    Except ProtoError ParallelJob :=
  match job.state, state with
  | .pending, .running => .ok { job with state := .running }
  | .running, .done => .ok { job with state := .done }
  | current, requested =>
    .error
      (assertError
        ("invalid state transition from '" ++ jobStateText current ++ "' to '" ++
          jobStateText requested ++ "'"))

/-- The dispatcher state: the fixed pool (client labels by slot), the FIFO
pending queue, the per-slot running job, and completed jobs awaiting
retrieval in completion order. -/
structure ParallelState where
  clientLabels : List String
  pendingQueue : List ParallelJob
  running : List (Option ParallelJob)
  doneList : List ParallelJob
  deriving DecidableEq

/-- `protocolParallelJobAdd`: append a job to the FIFO pending queue. -/
def protocolParallelJobAdd (st : ParallelState) (job : ParallelJob) : ParallelState :=
  { st with pendingQueue := st.pendingQueue ++ [job] }

/-- Step 1 of a dispatcher pass: walk the slots in order and give every idle
slot the next pending job (FIFO), transitioning it to running and recording
the 1-based process id.  Returns the updated slots and the remaining queue. -/
def parallelAssign (slots : List (Option ParallelJob)) (pending : List ParallelJob)
    (slotIdx : Nat) : List (Option ParallelJob) × List ParallelJob :=
  match slots, pending with
  | [], rest => ([], rest)
  | none :: slots, job :: pending =>
    let jobRunning := { job with state := JobState.running, processId := slotIdx + 1 }
    let next := parallelAssign slots pending (slotIdx + 1)
    (some jobRunning :: next.1, next.2)
  | none :: slots, [] =>
    let next := parallelAssign slots [] (slotIdx + 1)
    (none :: next.1, next.2)
  | some job :: slots, pending =>
    let next := parallelAssign slots pending (slotIdx + 1)
    (some job :: next.1, next.2)

/-- The number of slots with a running job. -/
def runningCount (slots : List (Option ParallelJob)) : Nat :=
  (slots.filterMap id).length

/-- The number of idle slots. -/
def idleCount (slots : List (Option ParallelJob)) : Nat :=
  slots.countP (fun s => s.isNone)

/-- The jobs newly placed by an assignment pass, in slot order: the jobs of
the new slots whose old slot was idle. -/
def assignedJobs (oldSlots newSlots : List (Option ParallelJob)) : List ParallelJob :=
  (oldSlots.zip newSlots).filterMap
    (fun p =>
      match p.1, p.2 with
      | none, some job => some job
      | _, _ => none)

/-- Complete the job on a ready slot: decode the reply exactly as the client
session does (with the slot's label for attribution) and store the result or
the error on the job, which becomes done. -/
def parallelJobComplete (label : String) (job : ParallelJob) (reply : SrvReply) : ParallelJob :=
  match protocolClientReadOutput label true reply with
  | .ok v => { job with state := JobState.done, result := v }
  | .error e =>
    { job with
      state := JobState.done
      errorCode := some e.code
      errorMessage := some e.message }

/-- Modelled from the spec: one non-blocking `protocolParallelProcess` pass.
Idle slots are filled from the FIFO queue; with nothing running the pass
returns 0; otherwise the bounded wait either times out (`ready = none`,
return 0) or names one ready slot, whose reply is decoded, completing that
job (return 1).  The ready slot is whichever session answered first,
independent of slot order. -/
def protocolParallelProcess (st : ParallelState) (ready : Option (Nat × SrvReply)) :
    ParallelState × Nat :=
  let assigned := parallelAssign st.running st.pendingQueue 0
  let st1 := { st with running := assigned.1, pendingQueue := assigned.2 }
  if runningCount st1.running = 0 then
    (st1, 0)
  else
    match ready with
    | none => (st1, 0)
    | some (slot, reply) =>
      match st1.running.getD slot none with
      | none => (st1, 0)
      | some job =>
        let jobDone := parallelJobComplete (st1.clientLabels.getD slot "") job reply
        let st2 :=
          { st1 with
            running := st1.running.set slot none
            doneList := st1.doneList ++ [jobDone] }
        (st2, 1)

/-- `protocolParallelResult`: remove and return the next completed job, or
nothing when no completed job is waiting. -/
def protocolParallelResult (st : ParallelState) : Option ParallelJob × ParallelState :=
  match st.doneList with
  | [] => (none, st)
  | job :: rest => (some job, { st with doneList := rest })

/-- `protocolParallelDone`: true iff the pending queue is empty and no slot
is running. -/
def protocolParallelDone (st : ParallelState) : Bool :=
  st.pendingQueue.isEmpty && runningCount st.running = 0

/-! ## Concrete configurations used as witnesses -/

/-- A configuration with a repo host set and no local encryption, as in the
`repoIsLocal` test. -/
def cfgRepoRemote : Config :=
  { repoHost := some "remote-host"
    pgHost := []
    command := none
    process := none
    repoCipherType := "none"
    repoCipherPass := none
    currentCommandName := "archive-get" }

/-- A configuration as loaded inside a spawned local process: `--command`
and `--process` are already set, as in the `protocolRemoteParam` test. -/
def cfgLocalSpawn : Config :=
  { repoHost := some "repo-host"
    pgHost := []
    command := some "archive-get"
    process := some 3
    repoCipherType := "none"
    repoCipherPass := none
    currentCommandName := "local" }

/-- A configuration with local repository encryption already configured, as
in the `protocolGet` test. -/
def cfgCipherLocal : Config :=
  { repoHost := some "localhost"
    pgHost := []
    command := none
    process := none
    repoCipherType := "aes-256-cbc"
    repoCipherPass := some "acbd"
    currentCommandName := "info" }

/-- The test protocol handler: `assert` raises an assert error,
`request-simple` answers `true`, anything else is not recognized. -/
def testHandler : Handler := fun name _ =>
  if name = "assert" then .raised (assertError "test assert")
  else if name = "request-simple" then .handled [.result (some (.scalar (.pbool true)))]
  else .notMine

/-! ## Theorems -/

/-- C2: for every job, pending to running and running to done each succeed
exactly once; every other transition attempt fails with an assert-class
error naming both states, and a failed attempt produces no updated job
(in this embedding the error carries no successor, so the job is exactly as
before the attempt). -/
theorem protocolParallelJobStateSet_spec (j : ParallelJob) (s : JobState) :
    ((∃ j', protocolParallelJobStateSet j s = .ok j') ↔
      ((j.state = .pending ∧ s = .running) ∨ (j.state = .running ∧ s = .done)))
    ∧ (∀ j', protocolParallelJobStateSet j s = .ok j' →
        j'.state = s ∧ j'.key = j.key ∧ j'.command = j.command ∧ j'.processId = j.processId ∧
        j'.result = j.result ∧ j'.errorCode = j.errorCode ∧ j'.errorMessage = j.errorMessage ∧
        ∀ j'', protocolParallelJobStateSet j' s ≠ .ok j'')
    ∧ (¬((j.state = .pending ∧ s = .running) ∨ (j.state = .running ∧ s = .done)) →
        protocolParallelJobStateSet j s =
          .error
            (assertError
              ("invalid state transition from '" ++ jobStateText j.state ++ "' to '" ++
                jobStateText s ++ "'"))) := by
  obtain ⟨k, c, st, p, r, ec, em⟩ := j
  cases st <;> cases s <;>
    simp [protocolParallelJobStateSet, jobStateText]

/-- C2 witness: a fresh job transitions to running, and a fresh job sent
straight to done fails with the documented message. -/
theorem protocolParallelJobStateSet_spec_witness :
    (∃ j', protocolParallelJobStateSet (protocolParallelJobNew (.pstr "test") ⟨"command", []⟩)
      .running = .ok j')
    ∧ protocolParallelJobStateSet (protocolParallelJobNew (.pstr "test") ⟨"command", []⟩) .done =
        .error (assertError "invalid state transition from 'pending' to 'done'") :=
  ⟨(protocolParallelJobStateSet_spec (protocolParallelJobNew (.pstr "test") ⟨"command", []⟩)
      .running).1.mpr (Or.inl ⟨rfl, rfl⟩),
    (protocolParallelJobStateSet_spec (protocolParallelJobNew (.pstr "test") ⟨"command", []⟩)
      .done).2.2 (by decide)⟩

/-- C10: `repoIsLocal` is true iff no repo host is configured, `pgIsLocal`
is true iff no pg host is configured at that host index, and
`repoIsLocalVerify` raises a `HostInvalidError` naming the current command
exactly when the repository is not local, doing nothing otherwise. -/
theorem repoIsLocal_pgIsLocal_spec (cfg : Config) (hostId : Nat) :
    (repoIsLocal cfg = true ↔ cfg.repoHost = none)
    ∧ (pgIsLocal cfg hostId = true ↔ cfg.pgHost.getD (hostId - 1) none = none)
    ∧ (repoIsLocal cfg = false →
        repoIsLocalVerify cfg =
          .error
            { errType := .HostInvalidError, code := 72,
              message := cfg.currentCommandName ++ " command must be run on the repository host",
              stack := some "stack trace" })
    ∧ (repoIsLocal cfg = true → repoIsLocalVerify cfg = .ok ()) := by
  refine ⟨?_, ?_, ?_, ?_⟩
  · cases h : cfg.repoHost <;> simp [repoIsLocal, h]
  · simp only [pgIsLocal]
    cases h : cfg.pgHost.getD (hostId - 1) none <;> simp
  · intro h
    simp [repoIsLocalVerify, h]
  · intro h
    simp [repoIsLocalVerify, h]

/-- C10 witness: with a repo host configured the verify step raises the
documented host error. -/
theorem repoIsLocal_pgIsLocal_spec_witness :
    repoIsLocal cfgRepoRemote = false
    ∧ repoIsLocalVerify cfgRepoRemote =
      .error
        { errType := .HostInvalidError, code := 72,
          message := "archive-get command must be run on the repository host",
          stack := some "stack trace" } :=
  ⟨by decide, (repoIsLocal_pgIsLocal_spec cfgRepoRemote 1).2.2.1 (by decide)⟩

/-- C8: `protocolKeepAlive` issues a no-op on exactly the cached remote
sessions: an uninitialized helper or an all-empty remote cache yields no
no-ops (and no error, the operation being total), the local cache is never
consulted, every no-op target is a cached remote session, every cached
remote session receives a no-op, and the number of no-ops equals the number
of cached remote sessions. -/
theorem protocolKeepAlive_spec (st : ProtocolHelperState) :
    (st.initialized = false → protocolKeepAlive st = [])
    ∧ ((∀ slot ∈ st.clientRemote, slot = none) → protocolKeepAlive st = [])
    ∧ (∀ (i : Bool) (r l l' : List (Option HelperClient)),
        protocolKeepAlive ⟨i, r, l⟩ = protocolKeepAlive ⟨i, r, l'⟩)
    ∧ (∀ c ∈ protocolKeepAlive st, some c ∈ st.clientRemote)
    ∧ (st.initialized = true → ∀ c, some c ∈ st.clientRemote → c ∈ protocolKeepAlive st)
    ∧ (st.initialized = true →
        (protocolKeepAlive st).length = st.clientRemote.countP (fun s => s.isSome)) := by
  refine ⟨?_, ?_, ?_, ?_, ?_, ?_⟩
  · intro h
    simp [protocolKeepAlive, h]
  · intro h
    by_cases hi : st.initialized = true
    · rw [protocolKeepAlive, if_pos hi, List.filterMap_eq_nil_iff]
      intro a ha
      exact h a ha
    · rw [protocolKeepAlive, if_neg hi]
  · intro i r l l'
    simp [protocolKeepAlive]
  · intro c hc
    by_cases hi : st.initialized = true
    · rw [protocolKeepAlive, if_pos hi] at hc
      rcases List.mem_filterMap.mp hc with ⟨a, ha, hid⟩
      have haeq : a = some c := hid
      exact haeq ▸ ha
    · rw [protocolKeepAlive, if_neg hi] at hc
      exact absurd hc (List.not_mem_nil c)
  · intro hi c hc
    rw [protocolKeepAlive, if_pos hi]
    exact List.mem_filterMap.mpr ⟨some c, hc, rfl⟩
  · intro hi
    rw [protocolKeepAlive, if_pos hi]
    have hlen : ∀ (r : List (Option HelperClient)),
        (r.filterMap id).length = r.countP (fun s => s.isSome) := by
      intro r
      induction r with
      | nil => simp
      | cons a r ih => cases a <;> simp [ih]
    exact hlen st.clientRemote

/-- C8 witness: keepalive on an uninitialized helper and on an initialized
helper with empty remote slots is a no-op, while a cached remote session
does receive its no-op (and local sessions never do). -/
theorem protocolKeepAlive_spec_witness :
    protocolKeepAlive ⟨false, [], []⟩ = []
    ∧ protocolKeepAlive ⟨true, [none, none], [some ⟨"local-1"⟩]⟩ = []
    ∧ (⟨"remote-1"⟩ : HelperClient) ∈
        protocolKeepAlive ⟨true, [some ⟨"remote-1"⟩, none], [some ⟨"local-1"⟩]⟩
    ∧ (protocolKeepAlive ⟨true, [some ⟨"remote-1"⟩, none], [some ⟨"local-1"⟩]⟩).length = 1 :=
  ⟨(protocolKeepAlive_spec ⟨false, [], []⟩).1 rfl,
    (protocolKeepAlive_spec ⟨true, [none, none], [some ⟨"local-1"⟩]⟩).2.1 (by decide),
    (protocolKeepAlive_spec ⟨true, [some ⟨"remote-1"⟩, none],
      [some ⟨"local-1"⟩]⟩).2.2.2.2.1 rfl ⟨"remote-1"⟩ (by decide),
    (protocolKeepAlive_spec ⟨true, [some ⟨"remote-1"⟩, none],
      [some ⟨"local-1"⟩]⟩).2.2.2.2.2 rfl⟩

/-- C9: the generated remote command line keeps an already-valid `--command`
or `--process` option; the caller-supplied command name and protocol id are
substituted only when the respective option is not set. -/
theorem protocolRemoteParam_keeps_existing (cfg : Config) (protocolId : Nat) :
    (∀ c, cfg.command = some c → protocolRemoteParamCommandValue cfg = some c)
    ∧ (cfg.command = none →
        protocolRemoteParamCommandValue cfg = some cfg.currentCommandName)
    ∧ (∀ p, cfg.process = some p → protocolRemoteParamProcessValue cfg protocolId = some p)
    ∧ (cfg.process = none → protocolRemoteParamProcessValue cfg protocolId = some protocolId) := by
  refine ⟨?_, ?_, ?_, ?_⟩
  · intro c h
    simp [protocolRemoteParamCommandValue, protocolRemoteParamCommandReplace,
      cfgExecParamValue, h]
  · intro h
    simp [protocolRemoteParamCommandValue, protocolRemoteParamCommandReplace,
      cfgExecParamValue, h]
  · intro p h
    simp [protocolRemoteParamProcessValue, protocolRemoteParamProcessReplace,
      cfgExecParamValue, h]
  · intro h
    simp [protocolRemoteParamProcessValue, protocolRemoteParamProcessReplace,
      cfgExecParamValue, h]

/-- C9 witness: mirroring the test, a spawned local process carrying
`--command=archive-get --process=3` generates a remote line with process 3
even though the caller passed protocol id 66. -/
theorem protocolRemoteParam_keeps_existing_witness :
    protocolRemoteParamProcessValue cfgLocalSpawn 66 = some 3
    ∧ protocolRemoteParamCommandValue cfgLocalSpawn = some "archive-get" :=
  ⟨(protocolRemoteParam_keeps_existing cfgLocalSpawn 66).2.2.1 3 rfl,
    (protocolRemoteParam_keeps_existing cfgLocalSpawn 66).1 "archive-get" rfl⟩

/-- C7: on a first connection to a repository remote the helper queries the
remote for its cipher options exactly when no local encryption is
configured, adopting both values when the remote cipher type is not
`"none"`; with local encryption configured (or a cached connection) the
local cipher settings are left unchanged. -/
theorem protocolRemoteGet_cipher_spec (hostId : Nat) (cfg : Config)
    (st : ProtocolHelperState) (rct rcp : String) :
    (st.clientRemote.getD (hostId - 1) none ≠ none →
      protocolRemoteGet .repo hostId cfg st rct rcp = (cfg, st, false))
    ∧ (st.clientRemote.getD (hostId - 1) none = none →
        ((protocolRemoteGet .repo hostId cfg st rct rcp).2.2 = true ↔
          cfg.repoCipherType = "none")
        ∧ (cfg.repoCipherType ≠ "none" →
            (protocolRemoteGet .repo hostId cfg st rct rcp).1 = cfg)
        ∧ (cfg.repoCipherType = "none" → rct ≠ "none" →
            (protocolRemoteGet .repo hostId cfg st rct rcp).1.repoCipherType = rct ∧
              (protocolRemoteGet .repo hostId cfg st rct rcp).1.repoCipherPass = some rcp)
        ∧ (cfg.repoCipherType = "none" → rct = "none" →
            (protocolRemoteGet .repo hostId cfg st rct rcp).1 = cfg)) := by
  constructor
  · intro h
    obtain ⟨a, ha⟩ := Option.ne_none_iff_exists.mp h
    simp only [protocolRemoteGet]
    rw [← ha]
  · intro h
    simp only [protocolRemoteGet]
    rw [h]
    by_cases hct : cfg.repoCipherType = "none" <;>
      by_cases hrt : rct = "none" <;>
        simp [protocolRemoteGetCipher, hct, hrt]

/-- C7 witness: with no local encryption and a remote reporting
`aes-256-cbc`, the options are queried and adopted; with local encryption
(`cfgCipherLocal`) nothing changes. -/
theorem protocolRemoteGet_cipher_spec_witness :
    ((protocolRemoteGet .repo 1 cfgRepoRemote ⟨false, [none], []⟩ "aes-256-cbc" "dcba").2.2 =
      true)
    ∧ (protocolRemoteGet .repo 1 cfgRepoRemote ⟨false, [none], []⟩ "aes-256-cbc"
        "dcba").1.repoCipherPass = some "dcba"
    ∧ (protocolRemoteGet .repo 1 cfgCipherLocal ⟨false, [none], []⟩ "none" "").1 =
        cfgCipherLocal :=
  ⟨((protocolRemoteGet_cipher_spec 1 cfgRepoRemote ⟨false, [none], []⟩ "aes-256-cbc"
      "dcba").2 rfl).1.mpr rfl,
    (((protocolRemoteGet_cipher_spec 1 cfgRepoRemote ⟨false, [none], []⟩ "aes-256-cbc"
      "dcba").2 rfl).2.2.1 rfl (by decide)).2,
    ((protocolRemoteGet_cipher_spec 1 cfgCipherLocal ⟨false, [none], []⟩ "none" "").2
      rfl).2.1 (by decide)⟩

/-- C3: greeting validation checks `name`, `service` and `version` in that
order against the product name, the requested service and the build
version; each wrong or missing field produces a `ProtocolError` naming
exactly that field (with expected and received values), while a first line
that does not parse produces a format-class framing error. -/
theorem protocolClientOpen_greeting_validation (raw svc : String)
    (kv : List (String × PScalar)) :
    (∃ e, protocolClientOpen (.malformed raw) svc = .error e ∧
      e.errType = .JsonFormatError ∧ e.errType ≠ .ProtocolError)
    ∧ (greetingKeyGet kv "name" = none →
        protocolClientOpen (.parsed kv) svc =
          .error (protocolError "unable to find greeting key 'name'"))
    ∧ (∀ v, greetingKeyGet kv "name" = some (.pstr v) → v ≠ PROJECT_NAME →
        protocolClientOpen (.parsed kv) svc =
          .error
            (protocolError
              ("expected value '" ++ PROJECT_NAME ++ "' for greeting key 'name' but got '" ++
                v ++ "'")))
    ∧ (∀ x, greetingKeyGet kv "name" = some x → (∀ v, x ≠ .pstr v) →
        protocolClientOpen (.parsed kv) svc =
          .error (protocolError "greeting key 'name' must be string type"))
    ∧ (greetingKeyGet kv "name" = some (.pstr PROJECT_NAME) →
        (greetingKeyGet kv "service" = none →
          protocolClientOpen (.parsed kv) svc =
            .error (protocolError "unable to find greeting key 'service'"))
        ∧ (∀ v, greetingKeyGet kv "service" = some (.pstr v) → v ≠ svc →
            protocolClientOpen (.parsed kv) svc =
              .error
                (protocolError
                  ("expected value '" ++ svc ++ "' for greeting key 'service' but got '" ++
                    v ++ "'")))
        ∧ (greetingKeyGet kv "service" = some (.pstr svc) →
            (∀ v, greetingKeyGet kv "version" = some (.pstr v) → v ≠ PROJECT_VERSION →
              protocolClientOpen (.parsed kv) svc =
                .error
                  (protocolError
                    ("expected value '" ++ PROJECT_VERSION ++
                      "' for greeting key 'version' but got '" ++ v ++ "'")))
            ∧ (greetingKeyGet kv "version" = some (.pstr PROJECT_VERSION) →
                protocolClientOpen (.parsed kv) svc = .ok ()))) := by
  refine ⟨⟨_, rfl, rfl, fun hcontra => ErrorType.noConfusion hcontra⟩, ?_, ?_, ?_, ?_⟩
  · intro h
    simp only [protocolClientOpen, greetingKeyCheck, h]
    rfl
  · intro v h hv
    simp only [protocolClientOpen, greetingKeyCheck, h, if_neg hv]
    rfl
  · intro x h hx
    cases x with
    | pstr v => exact absurd rfl (hx v)
    | pnull =>
      simp only [protocolClientOpen, greetingKeyCheck, h]
      rfl
    | pbool b =>
      simp only [protocolClientOpen, greetingKeyCheck, h]
      rfl
    | pint i =>
      simp only [protocolClientOpen, greetingKeyCheck, h]
      rfl
  · intro hname
    have hn : greetingKeyCheck kv "name" PROJECT_NAME = .ok () := by
      unfold greetingKeyCheck
      rw [hname]
      exact if_pos rfl
    refine ⟨?_, ?_, ?_⟩
    · intro h
      have hs : greetingKeyCheck kv "service" svc =
          .error (protocolError "unable to find greeting key 'service'") := by
        unfold greetingKeyCheck
        rw [h]
        rfl
      simp only [protocolClientOpen, hn, hs]
      rfl
    · intro v h hv
      have hs : greetingKeyCheck kv "service" svc =
          .error
            (protocolError
              ("expected value '" ++ svc ++ "' for greeting key '" ++ "service" ++
                "' but got '" ++ v ++ "'")) := by
        unfold greetingKeyCheck
        rw [h]
        exact if_neg hv
      have hred : protocolClientOpen (.parsed kv) svc =
          .error
            (protocolError
              ("expected value '" ++ svc ++ "' for greeting key '" ++ "service" ++
                "' but got '" ++ v ++ "'")) := by
        simp only [protocolClientOpen, hn, hs]
        rfl
      rw [hred]
      simp [protocolError, String.append_assoc]
    · intro hsvc
      have hs : greetingKeyCheck kv "service" svc = .ok () := by
        unfold greetingKeyCheck
        rw [hsvc]
        exact if_pos rfl
      refine ⟨?_, ?_⟩
      · intro v h hv
        have hver : greetingKeyCheck kv "version" PROJECT_VERSION =
            .error
              (protocolError
                ("expected value '" ++ PROJECT_VERSION ++ "' for greeting key '" ++ "version" ++
                  "' but got '" ++ v ++ "'")) := by
          unfold greetingKeyCheck
          rw [h]
          exact if_neg hv
        simp only [protocolClientOpen, hn, hs, hver]
        rfl
      · intro h
        have hver : greetingKeyCheck kv "version" PROJECT_VERSION = .ok () := by
          unfold greetingKeyCheck
          rw [h]
          exact if_pos rfl
        simp only [protocolClientOpen, hn, hs, hver]
        rfl

/-- C3 witness: the six greetings of the test produce the errors of the
test, and the correct greeting succeeds. -/
theorem protocolClientOpen_greeting_validation_witness :
    protocolClientOpen (.parsed [("name", .pstr "bogus")]) "test" =
      .error
        (protocolError "expected value 'pgBackRest' for greeting key 'name' but got 'bogus'")
    ∧ protocolClientOpen (.parsed [("name", .pnull)]) "test" =
        .error (protocolError "unable to find greeting key 'name'")
    ∧ protocolClientOpen (.parsed [("name", .pint 999)]) "test" =
        .error (protocolError "greeting key 'name' must be string type")
    ∧ protocolClientOpen
        (.parsed [("name", .pstr "pgBackRest"), ("service", .pstr "test"),
          ("version", .pstr "2.18")]) "test" = .ok () := by
  refine ⟨?_, ?_, ?_, ?_⟩
  · exact (protocolClientOpen_greeting_validation "" "test" [("name", .pstr "bogus")]).2.2.1
      "bogus" (by decide) (by decide)
  · exact (protocolClientOpen_greeting_validation "" "test" [("name", .pnull)]).2.1 (by decide)
  · exact (protocolClientOpen_greeting_validation "" "test" [("name", .pint 999)]).2.2.2.1
      (.pint 999) (by decide) (fun v h => PScalar.noConfusion h)
  · exact (((protocolClientOpen_greeting_validation "" "test"
      [("name", .pstr "pgBackRest"), ("service", .pstr "test"),
        ("version", .pstr "2.18")]).2.2.2.2 (by decide)).2.2 (by decide)).2 (by decide)

/-- C4: an error reply always surfaces as an error whose message is
`raised from <label>: ` followed by the peer message, with the documented
defaults when the `out` or `errStack` fields are absent, and the peer code
preserved. -/
theorem protocolClientExecute_error_attribution (label : String) (outputExpected : Bool)
    (err : Int) (out errStack : Option String) :
    ∃ e, protocolClientExecute label outputExpected (.errorReply err out errStack) = .error e
      ∧ e.message = "raised from " ++ label ++ ": " ++ out.getD "no details available"
      ∧ (∃ tail, e.message = "raised from " ++ label ++ ": " ++ tail)
      ∧ e.code = err
      ∧ e.stack = some (errStack.getD "no stack trace available") :=
  ⟨protocolClientError label err out errStack, rfl, rfl,
    ⟨out.getD "no details available", rfl⟩, rfl, rfl⟩

/-- C6: executing against an empty result succeeds with no value only when
no output is expected; expecting output from an empty result is an
assert-class contract violation; a result carrying output decodes to the
same value (order and types of a sequence preserved). -/
theorem protocolClientExecute_output_contract (label : String) (v : PVal) :
    protocolClientExecute label false .resultNone = .ok none
    ∧ (∃ e, protocolClientExecute label true .resultNone = .error e ∧
        e.errType = .AssertError ∧ e.message = "no output required by command")
    ∧ protocolClientExecute label true (.resultOut v) = .ok (some v) :=
  ⟨rfl, ⟨assertError "no output required by command", rfl, rfl, rfl⟩, rfl⟩

/-- The process loop handles one non-exit command and continues on the
rest. -/
theorem protocolServerProcess_cons (handlers : List Handler) (c : CommandMsg)
    (rest : List CommandMsg) (h : c.name ≠ "exit") :
    protocolServerProcess handlers (c :: rest) =
      serverRespond handlers c ++ protocolServerProcess handlers rest := by
  simp only [protocolServerProcess]
  rw [if_neg h]

/-- C5: the server process loop is never ended by a servicing error: a
handler error is converted to a wire error message (code, message, stack)
and the loop continues on the remaining commands; a command no handler
recognizes is answered with an invalid-command error (code 39, message
naming the command) and the loop continues; only `exit` ends the loop, and
`noop` echoes an empty result. -/
theorem protocolServerProcess_error_containment (handlers : List Handler) (name : String)
    (ps : List PScalar) (rest : List CommandMsg) (e : ProtoError) :
    (name ≠ "exit" → name ≠ "noop" → serverTryHandlers handlers name ps = .raised e →
      protocolServerProcess handlers (⟨name, ps⟩ :: rest) =
        .errMsg e.code e.message e.stack :: protocolServerProcess handlers rest)
    ∧ (name ≠ "exit" → name ≠ "noop" → serverTryHandlers handlers name ps = .notMine →
      protocolServerProcess handlers (⟨name, ps⟩ :: rest) =
        .errMsg 39 ("invalid command '" ++ name ++ "'") (some "stack trace") ::
          protocolServerProcess handlers rest)
    ∧ protocolServerProcess handlers (⟨"exit", ps⟩ :: rest) = []
    ∧ protocolServerProcess handlers (⟨"noop", ps⟩ :: rest) =
        .result none :: protocolServerProcess handlers rest := by
  refine ⟨?_, ?_, rfl, rfl⟩
  · intro hexit hnoop hr
    rw [protocolServerProcess_cons handlers ⟨name, ps⟩ rest hexit]
    unfold serverRespond
    show (if name = "noop" then _ else _) ++ _ = _
    rw [if_neg hnoop, hr]
    rfl
  · intro hexit hnoop hr
    rw [protocolServerProcess_cons handlers ⟨name, ps⟩ rest hexit]
    unfold serverRespond
    show (if name = "noop" then _ else _) ++ _ = _
    rw [if_neg hnoop, hr]
    rfl

/-- C5 witness: with the test handler registered, `bogus` is answered with
the invalid-command error and the loop continues to serve the remaining
commands. -/
theorem protocolServerProcess_error_containment_witness :
    serverTryHandlers [testHandler] "bogus" [] = .notMine
    ∧ protocolServerProcess [testHandler] [⟨"bogus", []⟩, ⟨"assert", []⟩, ⟨"exit", []⟩] =
        .errMsg 39 ("invalid command '" ++ "bogus" ++ "'") (some "stack trace") ::
          protocolServerProcess [testHandler] [⟨"assert", []⟩, ⟨"exit", []⟩] :=
  ⟨rfl,
    (protocolServerProcess_error_containment [testHandler] "bogus" [] [⟨"assert", []⟩,
      ⟨"exit", []⟩] (assertError "test assert")).2.1 (by decide) (by decide) rfl⟩

/-- An assignment pass fills the idle slots, in slot order, with the first
pending jobs in queue order: FIFO relative to `jobAdd`. -/
theorem parallelAssign_fifo (slots : List (Option ParallelJob)) (pending : List ParallelJob)
    (idx : Nat) :
    (assignedJobs slots (parallelAssign slots pending idx).1).map ParallelJob.key =
      (pending.take (idleCount slots)).map ParallelJob.key := by
  induction slots generalizing pending idx with
  | nil => simp [parallelAssign, assignedJobs, idleCount]
  | cons s slots ih =>
    cases s with
    | none =>
      cases pending with
      | nil =>
        simpa [parallelAssign, assignedJobs, idleCount] using ih [] (idx + 1)
      | cons job pending =>
        simpa [parallelAssign, assignedJobs, idleCount] using ih pending (idx + 1)
    | some job =>
      simpa [parallelAssign, assignedJobs, idleCount] using ih pending (idx + 1)

set_option maxHeartbeats 2000000 in
/-- C1: jobs are handed to idle slots in FIFO order of `jobAdd` (for any
slots and queue, an assignment pass gives the idle slots the first pending
jobs in order), while `result` yields completion order: with two clients,
job A added before job B, and B's session answering first, `result` yields
B (key and result intact) strictly before A, which is retrieved on a later
pass. -/
theorem protocolParallel_completion_order (kA kB : PScalar) (cA cB : CommandMsg)
    (vA vB : PVal) :
    let st0 : ParallelState :=
      { clientLabels := ["test client 0", "test client 1"]
        pendingQueue := [protocolParallelJobNew kA cA, protocolParallelJobNew kB cB]
        running := [none, none]
        doneList := [] }
    let p1 := protocolParallelProcess st0 none
    let p2 := protocolParallelProcess p1.1 (some (1, .resultOut vB))
    let r1 := protocolParallelResult p2.1
    let p3 := protocolParallelProcess r1.2 (some (0, .resultOut vA))
    let r2 := protocolParallelResult p3.1
    (p1.1.running.map (fun s => s.map ParallelJob.key) = [some kA, some kB])
    ∧ p1.2 = 0
    ∧ p2.2 = 1
    ∧ r1.1.map ParallelJob.key = some kB
    ∧ r1.1.map ParallelJob.state = some .done
    ∧ r1.1.map ParallelJob.result = some (some vB)
    ∧ r1.1.map ParallelJob.processId = some 2
    ∧ p3.2 = 1
    ∧ r2.1.map ParallelJob.key = some kA
    ∧ r2.1.map ParallelJob.result = some (some vA)
    ∧ protocolParallelDone r2.2 = true
    ∧ (∀ (slots : List (Option ParallelJob)) (pending : List ParallelJob) (idx : Nat),
        (assignedJobs slots (parallelAssign slots pending idx).1).map ParallelJob.key =
          (pending.take (idleCount slots)).map ParallelJob.key) :=
  ⟨rfl, rfl, rfl, rfl, rfl, rfl, rfl, rfl, rfl, rfl, rfl, parallelAssign_fifo⟩

end PgBackRest

